import Mathlib

/-!
# Verification of the safe-rewrite validation pipeline

Shallow embedding of `safe_rewrite.py`: fact extraction via pattern rules
(`URL_RE`, `NUM_RE`, `DATE_RE`, `NE_RE` and `re.findall` semantics),
coverage scoring (`coverage_score`), score-vector computation
(`validate_rewrite`), threshold checking (`is_pass`), feedback composition,
and the retry orchestrator (`safe_rewrite`).

Texts are `List Char` (Python strings are sequences of code points).
Scores are `ℚ` (Python computes them with float division on small integer
numerators and denominators; the thresholds 0.8, 0.7, 0.6 are treated as the
exact rationals 4/5, 7/10, 3/5).  `\d` in the regexes is modelled as the
ASCII digits; `\s` is modelled as Python's full whitespace set.

The external generation service (`gemini_model.generate_content`) is an
oracle `gen : Nat → Option (List Char)` mapping the index of each call made
during a session to the `text` field of its response (`none` = absent).
Call 0 is the must-keep fact-extraction request; calls 1, 2, … are the
rewrite-generation requests, in order.  Prompt texts are opaque to the
orchestrator's control flow (its branching never inspects them), so they are
not threaded through the model.  The orchestrator additionally records a
trace of events: each external call, and each run of the local
`extract_key_facts` on the original (which happens at the top of every
`validate_rewrite`).  `time.sleep` is a pure no-op here.
-/

set_option maxRecDepth 16000

/-- Python's `\s` for `str` patterns: tab through carriage return, the
ASCII separators 0x1c–0x1f, space, next line, no-break space, and the
Unicode space separators. -/
def pyIsSpace (c : Char) : Bool :=
  (9 ≤ c.toNat && c.toNat ≤ 13) || c.toNat = 32 ||
  (28 ≤ c.toNat && c.toNat ≤ 31) || c.toNat = 0x85 || c.toNat = 0xA0 ||
  c.toNat = 0x1680 || (0x2000 ≤ c.toNat && c.toNat ≤ 0x200A) ||
  c.toNat = 0x2028 || c.toNat = 0x2029 || c.toNat = 0x202F ||
  c.toNat = 0x205F || c.toNat = 0x3000

/-- The character class `[^\s)<>"']` of `URL_RE` (34 = `"`, 39 = `'`). -/
def urlBodyChar (c : Char) : Bool :=
  !(pyIsSpace c || c = ')' || c = '<' || c = '>' || c.toNat = 34 || c.toNat = 39)

/-- The date separator class `[/.-]` of `DATE_RE`. -/
def isSep (c : Char) : Bool := c = '/' || c = '.' || c = '-'

/-- `[ァ-ンヴー]`: the katakana block U+30A1–U+30F3 plus ヴ (U+30F4) and the
prolonged sound mark ー (U+30FC). -/
def isKatakana (c : Char) : Bool :=
  (0x30A1 ≤ c.toNat && c.toNat ≤ 0x30F3) || c.toNat = 0x30F4 || c.toNat = 0x30FC

/-- `[一-龥]`: the ideograph range U+4E00–U+9FA5. -/
def isKanji (c : Char) : Bool := 0x4E00 ≤ c.toNat && c.toNat ≤ 0x9FA5

/-- The character class `[A-Za-z0-9\-_/]` of `NE_RE`'s first alternative. -/
def neAsciiChar (c : Char) : Bool :=
  c.isAlpha || c.isDigit || c = '-' || c = '_' || c = '/'

/-- Length of the longest prefix whose characters all satisfy `p`
(the greedy `+`/`*` of a character class). -/
def countWhile (p : Char → Bool) : List Char → Nat
  | [] => 0
  | c :: rest => if p c then countWhile p rest + 1 else 0

/-- After the literal `http` (`consumed` characters so far, 4 or 5): the
`://` and the greedy body `[^\s)<>"']+` of `URL_RE`.  Returns the total
length of the match. -/
def urlAfterScheme (consumed : Nat) (rest : List Char) : Option Nat :=
  match rest with
  | ':' :: '/' :: '/' :: body =>
    if countWhile urlBodyChar body = 0 then none
    else some (consumed + 3 + countWhile urlBodyChar body)
  | _ => none

/-- `URL_RE = https?://[^\s)<>"']+` anchored at the head of the input:
the length of the match, if any.  The optional `s` is tried greedily first,
exactly as the regex engine backtracks. -/
def urlMatch : List Char → Option Nat
  | 'h' :: 't' :: 't' :: 'p' :: rest =>
    match rest with
    | 's' :: rest2 =>
      match urlAfterScheme 5 rest2 with
      | some n => some n
      | none => urlAfterScheme 4 rest
    | _ => urlAfterScheme 4 rest
  | _ => none

/-- The suffix `\d+(?:[.,]\d+)?%?` of `NUM_RE` anchored at the head:
greedy digits, then an optional separator-plus-digits group, then an
optional percent sign. -/
def numTail (t : List Char) : Option Nat :=
  if countWhile Char.isDigit t = 0 then none
  else
    let d := countWhile Char.isDigit t
    let frac : Nat :=
      match t.drop d with
      | c :: t3 =>
        if (c = '.' || c = ',') && 1 ≤ countWhile Char.isDigit t3 then
          1 + countWhile Char.isDigit t3
        else 0
      | [] => 0
    let pct : Nat :=
      match t.drop (d + frac) with
      | c :: _ => if c = '%' then 1 else 0
      | [] => 0
    some (d + frac + pct)

/-- `NUM_RE = [-+]?\d+(?:[.,]\d+)?%?` anchored at the head.  If the leading
sign is present but no digits follow it, backtracking to the empty sign
also fails (the sign character is not a digit), so the whole match fails. -/
def numMatch : List Char → Option Nat
  | [] => none
  | c :: rest =>
    if c = '-' || c = '+' then
      match numTail rest with
      | some n => some (n + 1)
      | none => none
    else numTail (c :: rest)

/-- `\d{1,2}` followed by one character satisfying `p`, anchored at the
head; returns the total consumed including that character.  Two digits are
tried first; the one-digit alternative only fires when the second character
satisfies `p`, which is exactly the regex backtracking order (the two cases
are mutually exclusive since no digit satisfies the separator classes
used). -/
def d12Then (p : Char → Bool) : List Char → Option Nat
  | a :: b :: c :: _ =>
    if a.isDigit && b.isDigit && p c then some 3
    else if a.isDigit && p b then some 2
    else none
  | [a, b] => if a.isDigit && p b then some 2 else none
  | _ => none

/-- `\d{1,2}` at the end of the pattern: greedily one or two digits. -/
def d12End : List Char → Option Nat
  | [] => none
  | a :: rest =>
    if a.isDigit then
      match rest with
      | b :: _ => if b.isDigit then some 2 else some 1
      | [] => some 1
    else none

/-- The tail `[/.-]\d{1,2}[/.-]\d{1,2}` of `DATE_RE`'s first alternative. -/
def dateNumericTail : List Char → Option Nat
  | c :: r =>
    if isSep c then
      match d12Then isSep r with
      | some m =>
        match d12End (r.drop m) with
        | some d => some (1 + m + d)
        | none => none
      | none => none
    else none
  | [] => none

/-- The tail `年\d{1,2}月\d{1,2}日` of `DATE_RE`'s second alternative. -/
def dateJpTail : List Char → Option Nat
  | c :: r =>
    if c = '年' then
      match d12Then (fun x => x = '月') r with
      | some m =>
        match d12Then (fun x => x = '日') (r.drop m) with
        | some d => some (1 + m + d)
        | none => none
      | none => none
    else none
  | [] => none

/-- `DATE_RE = (20\d{2}[/.-]\d{1,2}[/.-]\d{1,2}|20\d{2}年\d{1,2}月\d{1,2}日)`
anchored at the head.  Both alternatives share the prefix `20\d{2}`; the
numeric form is tried first, as the regex engine does. -/
def dateMatch : List Char → Option Nat
  | '2' :: '0' :: a :: b :: rest =>
    if a.isDigit && b.isDigit then
      match dateNumericTail rest with
      | some k => some (4 + k)
      | none =>
        match dateJpTail rest with
        | some k => some (4 + k)
        | none => none
    else none
  | _ => none

/-- `NE_RE = [A-Za-z][A-Za-z0-9\-_/]+|[ァ-ンヴー]{2,}|[一-龥]{2,}` anchored at
the head: alternatives in order; each needs at least two characters.  The
three leading classes are pairwise disjoint, so the if-chain is the regex's
alternation order. -/
def neMatch : List Char → Option Nat
  | [] => none
  | c :: rest =>
    if c.isAlpha then
      if countWhile neAsciiChar rest = 0 then none
      else some (countWhile neAsciiChar rest + 1)
    else if isKatakana c then
      if countWhile isKatakana rest = 0 then none
      else some (countWhile isKatakana rest + 1)
    else if isKanji c then
      if countWhile isKanji rest = 0 then none
      else some (countWhile isKanji rest + 1)
    else none

/-- `re.findall` with a head-anchored matcher `m` (returning the length of
the match at the current position, never 0 for the four patterns above):
scan left to right; on a match of length `k+1`, emit it and resume right
after it; otherwise advance one character.  `fuel` bounds the scan; since
every step consumes at least one character, `fuel = length of the input`
(as supplied by `findAll`) always suffices. -/
def findAllF (m : List Char → Option Nat) : Nat → List Char → List (List Char)
  | 0, _ => []
  | _ + 1, [] => []
  | fuel + 1, c :: rest =>
    match m (c :: rest) with
    | some (k + 1) => (c :: rest.take k) :: findAllF m fuel (rest.drop k)
    | _ => findAllF m fuel rest

/-- All non-overlapping, leftmost matches of `m` in `s`, in order. -/
def findAll (m : List Char → Option Nat) (s : List Char) : List (List Char) :=
  findAllF m s.length s

/-- `list(dict.fromkeys(xs))`: drop later duplicates, keeping the first
occurrence of each element, in order.  `seen` accumulates what was kept. -/
def dedupFirstAux (seen : List (List Char)) : List (List Char) → List (List Char)
  | [] => []
  | a :: l =>
    if a ∈ seen then dedupFirstAux seen l
    else a :: dedupFirstAux (a :: seen) l

/-- Order-preserving deduplication, first occurrences kept. -/
def dedupFirst (l : List (List Char)) : List (List Char) := dedupFirstAux [] l

/-- The Baseline Fact Set: the dictionary returned by `extract_key_facts`. -/
structure KeyFacts where
  urls : List (List Char)
  numbers : List (List Char)
  dates : List (List Char)
  entities : List (List Char)
deriving DecidableEq

/-- `extract_key_facts`: per-category `findall`, order-preserving
deduplication, then the caps `[:50]`/`[:100]`/`[:50]`/`[:100]`. -/
def extract_key_facts (text : List Char) : KeyFacts :=
  { urls := (dedupFirst (findAll urlMatch text)).take 50
    numbers := (dedupFirst (findAll numMatch text)).take 100
    dates := (dedupFirst (findAll dateMatch text)).take 50
    entities := (dedupFirst (findAll neMatch text)).take 100 }

/-- Python's substring test `x in t` on strings: `x` occurs contiguously
in `t` (the empty string occurs in every string). -/
def occursIn (x : List Char) : List Char → Bool
  | [] => x.isEmpty
  | c :: rest => x.isPrefixOf (c :: rest) || occursIn x rest

/-- `coverage_score(baseline, rewritten)`: 1.0 on an empty baseline;
otherwise the number of baseline items that are truthy (non-empty) and
occur in `rewritten`, divided by `max(5, min(len(baseline), 100))`. -/
def coverage_score (baseline : List (List Char)) (rewritten : List Char) : ℚ :=
  if baseline = [] then 1
  else ((baseline.countP fun x => !x.isEmpty && occursIn x rewritten : ℕ) : ℚ) /
    ((max 5 (min baseline.length 100) : ℕ) : ℚ)

/-- Modelled from the spec: the spec's own formula for `coverage_score`
("count of baseline items that appear as a literal substring in
candidate_text" over the same denominator), with no truthiness guard on the
items.  Used only to compare the spec's words against the source's
`coverage_score`, which skips empty items. -/
def coverage_score_spec (baseline : List (List Char)) (rewritten : List Char) : ℚ :=
  if baseline = [] then 1
  else ((baseline.countP fun x => occursIn x rewritten : ℕ) : ℚ) /
    ((max 5 (min baseline.length 100) : ℕ) : ℚ)

/-- `re.sub(r"\s+", "", s)`: removing whitespace runs removes exactly the
whitespace characters. -/
def stripSpaces (t : List Char) : List Char := t.filter fun c => !pyIsSpace c

/-- The Coverage Score Vector returned by `validate_rewrite`, with the
dictionary's five keys as fields. -/
structure Scores where
  url_keep : ℚ
  num_keep : ℚ
  date_keep : ℚ
  ent_keep : ℚ
  length_ratio : ℚ
deriving DecidableEq

/-- `validate_rewrite(original, rewritten_html)`: extract the Baseline Fact
Set from `original` (this runs on every call), score each category against
`rewritten_html`, and add the whitespace-insensitive length ratio
`new_len / max(1, orig_len)`. -/
def validate_rewrite (original rewritten_html : List Char) : Scores :=
  { url_keep := coverage_score (extract_key_facts original).urls rewritten_html
    num_keep := coverage_score (extract_key_facts original).numbers rewritten_html
    date_keep := coverage_score (extract_key_facts original).dates rewritten_html
    ent_keep := coverage_score (extract_key_facts original).entities rewritten_html
    length_ratio := ((stripSpaces rewritten_html).length : ℚ) /
      ((max 1 (stripSpaces original).length : ℕ) : ℚ) }

/-- `is_pass(scores, url_min, num_min, date_min, ent_min, len_min)`:
the conjunction of the five threshold checks. -/
def is_pass (scores : Scores) (url_min num_min date_min ent_min len_min : ℚ) : Bool :=
  decide (url_min ≤ scores.url_keep) && decide (num_min ≤ scores.num_keep) &&
  decide (date_min ≤ scores.date_keep) && decide (ent_min ≤ scores.ent_keep) &&
  decide (len_min ≤ scores.length_ratio)

/-- `is_pass` at its default thresholds 0.8, 0.7, 0.7, 0.6, 0.6. -/
def is_pass_default (scores : Scores) : Bool :=
  is_pass scores (4/5) (7/10) (7/10) (3/5) (3/5)

/-- The value `coverage_score B X` takes when every item of `B` is non-empty
and occurs in `X` and `B` has at most 100 items, as a function of `B`'s
length: 1 on an empty baseline, else length over `max 5 length`. -/
def selfCov (n : ℕ) : ℚ := if n = 0 then 1 else (n : ℚ) / ((max 5 n : ℕ) : ℚ)

/-- The weak-category list of the retry feedback:
`[k for k, v in last_scores.items() if k != "length_ratio" and v < 0.8]`,
in the dictionary's insertion order. -/
def weakCategories (s : Scores) : List String :=
  (if s.url_keep < 4/5 then ["url_keep"] else []) ++
  (if s.num_keep < 4/5 then ["num_keep"] else []) ++
  (if s.date_keep < 4/5 then ["date_keep"] else []) ++
  (if s.ent_keep < 4/5 then ["ent_keep"] else [])

/-- The feedback template's text before the joined weak-category names. -/
def feedbackHead : String := "\n以下の保持率が不足しています: "

/-- The feedback template's text between the weak-category names and the
minimum-length percentage. -/
def feedbackMid : String :=
  "。元記事の該当要素を**必ず維持**して再生成してください。\n- URL/参照リンクは本文に残す（アンカーも可）\n- 数値/日付は原文通り。単位・表記も維持\n- 固有名詞は必ず残す（表記ゆれ禁止）\n- 全体の長さは原文の"

/-- The feedback template's closing text. -/
def feedbackTail : String := "%以上\n"

/-- The feedback block composed on a failed scoring pass: the weak-category
names joined by `", "`, and the restated minimum length
`int(100 * max(0.6, length_ratio))` percent. -/
def composeFeedback (s : Scores) : String :=
  feedbackHead ++ String.intercalate ", " (weakCategories s) ++ feedbackMid ++
  toString (Int.toNat (100 * max (3/5 : ℚ) s.length_ratio).floor) ++ feedbackTail

/-- The observable steps of one `safe_rewrite` session: the must-keep
fact-extraction request to the generation service, a rewrite-generation
request to it, and a run of the local `extract_key_facts` on the original
text (the first statement of `validate_rewrite`). -/
inductive Event where
  | extractMustKeep : Event
  | generate : Event
  | factExtraction : Event
deriving DecidableEq

/-- Occurrences of `e` in a trace. -/
def countEv (e : Event) : List Event → Nat
  | [] => 0
  | x :: tr => (if x = e then 1 else 0) + countEv e tr

/-- The `for attempt in range(max_retries + 1)` loop of `safe_rewrite`:
generate a candidate, score it, return on pass; otherwise compose feedback,
generate once more with the feedback appended to the same prompt, score,
return on pass; otherwise continue with the next attempt, carrying the last
candidate and scores (returned as-is when the attempts run out).  `idx` is
the index of the next generation-service call; the second component is the
event trace. -/
def attemptLoop (original : List Char) (gen : Nat → Option (List Char)) :
    Nat → Nat → List Char × Scores → (List Char × Scores) × List Event
  | 0, _, last => (last, [])
  | n + 1, idx, _ =>
    if is_pass_default (validate_rewrite original ((gen idx).getD [])) then
      (((gen idx).getD [], validate_rewrite original ((gen idx).getD [])),
        [Event.generate, Event.factExtraction])
    else if is_pass_default (validate_rewrite original ((gen (idx + 1)).getD [])) then
      (((gen (idx + 1)).getD [], validate_rewrite original ((gen (idx + 1)).getD [])),
        [Event.generate, Event.factExtraction, Event.generate, Event.factExtraction])
    else
      let r := attemptLoop original gen n (idx + 2)
        ((gen (idx + 1)).getD [], validate_rewrite original ((gen (idx + 1)).getD []))
      (r.1, Event.generate :: Event.factExtraction ::
        Event.generate :: Event.factExtraction :: r.2)

/-- `safe_rewrite`: one must-keep extraction call (call 0, whose response
text is threaded through opaquely and returned), then the retry loop over
rewrite-generation calls 1, 2, ….  Returns the
`(rewritten_html, scores, must_keep_json)` triple and the event trace.
`keyword`, `ai_suggestions_text`, `style_guidelines` and `sleep_sec` only
shape the prompts and the pause, which the control flow never inspects. -/
def safe_rewrite (gen : Nat → Option (List Char))
    (keyword original_html_or_text ai_suggestions_text : List Char)
    (style_guidelines : Option (List Char)) (max_retries : Nat) (sleep_sec : ℚ) :
    (List Char × Scores × Option (List Char)) × List Event :=
  let must_keep_json := gen 0
  let r := attemptLoop original_html_or_text gen (max_retries + 1) 1
    ([], ⟨0, 0, 0, 0, 0⟩)
  ((r.1.1, r.1.2, must_keep_json), Event.extractMustKeep :: r.2)

/-! ## Soundness of the extraction machinery -/

/-- Python's `in` agrees with the contiguous-sublist relation. -/
theorem occursIn_correct (x : List Char) : ∀ t : List Char, occursIn x t = true ↔ x <:+: t := by
  intro t
  induction t with
  | nil =>
    simp only [occursIn, List.isEmpty_iff]
    constructor
    · intro h; simp [h]
    · intro h
      obtain ⟨s, t, hst⟩ := h
      simp only [List.append_eq_nil] at hst
      simp [hst.1.2]
  | cons c rest ih =>
    simp [occursIn, ih, List.infix_cons_iff, List.isPrefixOf_iff_prefix, or_comm]

/-- Every token emitted by the scanner is a non-empty contiguous substring
of the scanned text. -/
theorem findAllF_sound (m : List Char → Option Nat) :
    ∀ (fuel : Nat) (s x : List Char), x ∈ findAllF m fuel s → x ≠ [] ∧ x <:+: s := by
  intro fuel
  induction fuel with
  | zero => intro s x hx; simp [findAllF] at hx
  | succ n ih =>
    intro s x hx
    match s with
    | [] => simp [findAllF] at hx
    | c :: rest =>
      rw [findAllF] at hx
      split at hx
      · next k _ =>
        rcases List.mem_cons.mp hx with h | h
        · subst h
          refine ⟨by simp, ?_⟩
          exact (List.cons_prefix_cons.mpr ⟨rfl, List.take_prefix k rest⟩).isInfix
        · have h2 := ih (rest.drop k) x h
          refine ⟨h2.1, h2.2.trans ?_⟩
          exact ((List.drop_suffix k rest).trans (List.suffix_cons c rest)).isInfix
      · have h2 := ih rest x hx
        exact ⟨h2.1, h2.2.trans (List.suffix_cons c rest).isInfix⟩

/-- Deduplication only keeps elements of the input. -/
theorem dedupFirstAux_subset :
    ∀ (l seen : List (List Char)) (x : List Char), x ∈ dedupFirstAux seen l → x ∈ l := by
  intro l
  induction l with
  | nil => intro seen x hx; simp [dedupFirstAux] at hx
  | cons a l ih =>
    intro seen x hx
    rw [dedupFirstAux] at hx
    split at hx
    · exact List.mem_cons_of_mem a (ih seen x hx)
    · rcases List.mem_cons.mp hx with h | h
      · exact h ▸ List.mem_cons_self a l
      · exact List.mem_cons_of_mem a (ih (a :: seen) x h)

/-- Every string in any of the four sequences of the Baseline Fact Set is a
non-empty contiguous substring of the source text. -/
theorem extract_key_facts_sound (T x : List Char)
    (h : x ∈ (extract_key_facts T).urls ∨ x ∈ (extract_key_facts T).numbers ∨
      x ∈ (extract_key_facts T).dates ∨ x ∈ (extract_key_facts T).entities) :
    x ≠ [] ∧ x <:+: T := by
  have step : ∀ (m : List Char → Option Nat) (n : Nat),
      x ∈ (dedupFirst (findAll m T)).take n → x ≠ [] ∧ x <:+: T := by
    intro m n hx
    exact findAllF_sound m T.length T x
      (dedupFirstAux_subset (findAll m T) [] x (List.take_subset n _ hx))
  rcases h with h | h | h | h
  · exact step urlMatch 50 h
  · exact step numMatch 100 h
  · exact step dateMatch 50 h
  · exact step neMatch 100 h

/-- Each baseline list of a Baseline Fact Set respects its cardinality cap,
hence has at most 100 items. -/
theorem extract_key_facts_len (T : List Char) :
    (extract_key_facts T).urls.length ≤ 100 ∧
    (extract_key_facts T).numbers.length ≤ 100 ∧
    (extract_key_facts T).dates.length ≤ 100 ∧
    (extract_key_facts T).entities.length ≤ 100 := by
  refine ⟨?_, ?_, ?_, ?_⟩ <;>
    exact le_trans (List.length_take_le _ _) (by norm_num)

/-! ## Lemmas about `coverage_score` -/

/-- Scoring a baseline all of whose items are non-empty substrings of the
candidate (as always happens when the candidate is the text the baseline
was extracted from): every item counts, and the score is `selfCov` of the
baseline's length. -/
theorem coverage_self (X : List Char) (B : List (List Char))
    (hsub : ∀ x ∈ B, x ≠ [] ∧ x <:+: X) (hlen : B.length ≤ 100) :
    coverage_score B X = selfCov B.length := by
  unfold coverage_score selfCov
  by_cases hB : B = []
  · simp [hB]
  · have hcount : (B.countP fun x => !x.isEmpty && occursIn x X) = B.length := by
      rw [List.countP_eq_length]
      intro a ha
      have h2 := hsub a ha
      simp [List.isEmpty_iff, h2.1, (occursIn_correct a X).mpr h2.2]
    have hmin : min B.length 100 = B.length := by omega
    have hne : B.length ≠ 0 := by simpa [List.length_eq_zero] using hB
    simp [hB, hcount, hmin, hne]

/-- `selfCov` is 1 exactly on the empty baseline and on baselines with at
least five items; with 1–4 items it is `n / 5 < 1`. -/
theorem selfCov_eq_one_iff (n : ℕ) : selfCov n = 1 ↔ (n = 0 ∨ 5 ≤ n) := by
  unfold selfCov
  by_cases h0 : n = 0
  · simp [h0]
  · by_cases h5 : 5 ≤ n
    · have hm : max 5 n = n := by omega
      have : ((n : ℕ) : ℚ) ≠ 0 := Nat.cast_ne_zero.mpr h0
      simp [h0, h5, hm, div_self this]
    · have hm : max 5 n = 5 := by omega
      rw [if_neg h0, hm, div_eq_one_iff_eq (by norm_num : ((5 : ℕ) : ℚ) ≠ 0)]
      constructor
      · intro h
        have h' : n = 5 := by exact_mod_cast h
        omega
      · intro h
        rcases h with h | h <;> omega

/-! ## Lemmas about `validate_rewrite` and the retry loop -/

/-- The `length_ratio` field of `validate_rewrite`, written out. -/
theorem validate_length_ratio (original rewritten : List Char) :
    (validate_rewrite original rewritten).length_ratio =
      ((stripSpaces rewritten).length : ℚ) /
        ((max 1 (stripSpaces original).length : ℕ) : ℚ) := rfl

/-- An empty candidate never passes the default thresholds: its
whitespace-insensitive length is 0, so `length_ratio = 0 < 0.6`. -/
theorem validate_empty_fail (original : List Char) :
    is_pass_default (validate_rewrite original []) = false := by
  have hlr : (validate_rewrite original []).length_ratio = 0 := by
    rw [validate_length_ratio]
    simp [stripSpaces]
  unfold is_pass_default is_pass
  rw [hlr, decide_eq_false (by norm_num : ¬((3 : ℚ)/5 ≤ 0))]
  simp

/-- Trace bookkeeping for the retry loop, for any generation oracle: each
generation call is followed by exactly one scoring pass (hence one run of
`extract_key_facts` on the original), the loop itself makes no must-keep
extraction call, and with `n` attempts it makes between 1 (when `n ≥ 1`)
and `2n` generation calls. -/
theorem attemptLoop_counts (original : List Char) (gen : Nat → Option (List Char)) :
    ∀ (n idx : Nat) (last : List Char × Scores),
      countEv Event.factExtraction (attemptLoop original gen n idx last).2 =
        countEv Event.generate (attemptLoop original gen n idx last).2 ∧
      countEv Event.extractMustKeep (attemptLoop original gen n idx last).2 = 0 ∧
      countEv Event.generate (attemptLoop original gen n idx last).2 ≤ 2 * n ∧
      (1 ≤ n → 1 ≤ countEv Event.generate (attemptLoop original gen n idx last).2) := by
  intro n
  induction n with
  | zero => intro idx last; simp [attemptLoop, countEv]
  | succ n ih =>
    intro idx last
    rw [attemptLoop]
    split
    · simp [countEv]; omega
    · split
      · simp [countEv]
      · have ihh := ih (idx + 2)
          ((gen (idx + 1)).getD [], validate_rewrite original ((gen (idx + 1)).getD []))
        simp only [countEv, reduceCtorEq, if_false, if_pos]
        simp only [countEv] at ihh
        refine ⟨by omega, by omega, by omega, fun _ => by omega⟩

/-- Closed form of the retry loop when every candidate from call `idx` on
fails the default thresholds: all `n + 1` attempts are used, the loop makes
`2(n + 1)` generation calls, and it returns the candidate of the last call
`idx + 2n + 1` together with that candidate's freshly computed scores. -/
theorem attemptLoop_fail (original : List Char) (gen : Nat → Option (List Char)) :
    ∀ (n idx : Nat) (last : List Char × Scores),
      (∀ i, idx ≤ i → is_pass_default (validate_rewrite original ((gen i).getD [])) = false) →
      (attemptLoop original gen (n + 1) idx last).1 =
        ((gen (idx + 2 * n + 1)).getD [],
          validate_rewrite original ((gen (idx + 2 * n + 1)).getD [])) ∧
      countEv Event.generate (attemptLoop original gen (n + 1) idx last).2 = 2 * (n + 1) ∧
      countEv Event.factExtraction (attemptLoop original gen (n + 1) idx last).2 =
        2 * (n + 1) := by
  intro n
  induction n with
  | zero =>
    intro idx last h
    rw [attemptLoop]
    simp [h idx le_rfl, h (idx + 1) (by omega), attemptLoop, countEv]
  | succ n ih =>
    intro idx last h
    have ihh := ih (idx + 2)
      ((gen (idx + 1)).getD [], validate_rewrite original ((gen (idx + 1)).getD []))
      (fun i hi => h i (by omega))
    rw [attemptLoop]
    simp only [h idx le_rfl, h (idx + 1) (by omega), Bool.false_eq_true, if_false]
    have harith : idx + 2 + 2 * n + 1 = idx + 2 * (n + 1) + 1 := by omega
    rw [harith] at ihh
    simp only [countEv, reduceCtorEq, if_false, if_pos]
    refine ⟨ihh.1, by omega, by omega⟩

/-! ## The claims -/

/-- Claim C2, counterexample: at `X = "2024-01-01"` the number baseline is
`["2024", "-01"]`, so `validate_rewrite X X` has `num_keep = 2/5 ≠ 1` — the
denominator floor of 5 keeps categories with 1–4 baseline items below 1.0
even when everything is retained. -/
theorem C2_counterexample :
    ¬((validate_rewrite "2024-01-01".toList "2024-01-01".toList).url_keep = 1 ∧
      (validate_rewrite "2024-01-01".toList "2024-01-01".toList).num_keep = 1 ∧
      (validate_rewrite "2024-01-01".toList "2024-01-01".toList).date_keep = 1 ∧
      (validate_rewrite "2024-01-01".toList "2024-01-01".toList).ent_keep = 1 ∧
      (validate_rewrite "2024-01-01".toList "2024-01-01".toList).length_ratio = 1) := by
  intro hc
  have hnums : (extract_key_facts "2024-01-01".toList).numbers =
      ["2024".toList, "-01".toList] := by decide
  have hcount : ((["2024".toList, "-01".toList] : List (List Char)).countP
      fun x => !x.isEmpty && occursIn x "2024-01-01".toList) = 2 := by decide
  have hden : max 5 (min (["2024".toList, "-01".toList] : List (List Char)).length 100) = 5 := by
    decide
  have h2 : (validate_rewrite "2024-01-01".toList "2024-01-01".toList).num_keep = (2 : ℚ)/5 := by
    show coverage_score (extract_key_facts "2024-01-01".toList).numbers
      "2024-01-01".toList = (2 : ℚ)/5
    rw [hnums, coverage_score, if_neg (by simp), hcount, hden]
    norm_num
  have hcontra := hc.2.1
  rw [h2] at hcontra
  norm_num at hcontra

/-- Claim C2 as amended: `validate_rewrite(X, X)` gives `length_ratio = 1`
whenever `X` has at least one non-whitespace character, and gives each
category score `selfCov n` for `n` the category's baseline size: 1 exactly
when the baseline is empty or has at least 5 items, and `n/5 < 1` when it
has 1–4 items (the denominator floor of 5). -/
theorem validate_rewrite_self (X : List Char) (h : stripSpaces X ≠ []) :
    (validate_rewrite X X).url_keep = selfCov (extract_key_facts X).urls.length ∧
    (validate_rewrite X X).num_keep = selfCov (extract_key_facts X).numbers.length ∧
    (validate_rewrite X X).date_keep = selfCov (extract_key_facts X).dates.length ∧
    (validate_rewrite X X).ent_keep = selfCov (extract_key_facts X).entities.length ∧
    (validate_rewrite X X).length_ratio = 1 ∧
    (∀ n : ℕ, selfCov n = 1 ↔ (n = 0 ∨ 5 ≤ n)) := by
  have hs := extract_key_facts_sound X
  have hl := extract_key_facts_len X
  refine ⟨?_, ?_, ?_, ?_, ?_, selfCov_eq_one_iff⟩
  · exact coverage_self X _ (fun x hx => hs x (Or.inl hx)) hl.1
  · exact coverage_self X _ (fun x hx => hs x (Or.inr (Or.inl hx))) hl.2.1
  · exact coverage_self X _ (fun x hx => hs x (Or.inr (Or.inr (Or.inl hx)))) hl.2.2.1
  · exact coverage_self X _ (fun x hx => hs x (Or.inr (Or.inr (Or.inr hx)))) hl.2.2.2
  · rw [validate_length_ratio]
    have hL : (stripSpaces X).length ≠ 0 := by simpa [List.length_eq_zero] using h
    have hm : max 1 (stripSpaces X).length = (stripSpaces X).length := by omega
    rw [hm, div_self (Nat.cast_ne_zero.mpr hL)]

/-- Witness for the amended C2, at `X = "hello"`. -/
theorem validate_rewrite_self_witness :
    stripSpaces "hello".toList ≠ [] ∧
    ((validate_rewrite "hello".toList "hello".toList).url_keep =
        selfCov (extract_key_facts "hello".toList).urls.length ∧
      (validate_rewrite "hello".toList "hello".toList).num_keep =
        selfCov (extract_key_facts "hello".toList).numbers.length ∧
      (validate_rewrite "hello".toList "hello".toList).date_keep =
        selfCov (extract_key_facts "hello".toList).dates.length ∧
      (validate_rewrite "hello".toList "hello".toList).ent_keep =
        selfCov (extract_key_facts "hello".toList).entities.length ∧
      (validate_rewrite "hello".toList "hello".toList).length_ratio = 1 ∧
      (∀ n : ℕ, selfCov n = 1 ↔ (n = 0 ∨ 5 ≤ n))) :=
  ⟨by decide, validate_rewrite_self "hello".toList (by decide)⟩

/-- Claim C3, counterexample: `coverage_score` is not clipped above: a
baseline of 101 copies of `"a"`, all occurring in the candidate `"a"`,
scores `101/100 > 1` (the count is not capped while the denominator is). -/
theorem C3_counterexample :
    1 < coverage_score (List.replicate 101 ['a']) ['a'] := by
  have hne : (List.replicate 101 (['a'] : List Char)) ≠ [] := by simp
  have hcount : ((List.replicate 101 (['a'] : List Char)).countP
      fun x => !x.isEmpty && occursIn x ['a']) = 101 := by decide
  have hden : max 5 (min (List.replicate 101 (['a'] : List Char)).length 100) = 100 := by decide
  rw [coverage_score, if_neg hne, hcount, hden]
  norm_num

/-- Claim C3 as amended: for every baseline of at most 100 items — which is
all that `extract_key_facts` ever hands to the scorer, given its caps of 50
and 100 — and every candidate, `coverage_score` lies in `[0, 1]`. -/
theorem coverage_score_bounded (baseline : List (List Char)) (rewritten : List Char)
    (h : baseline.length ≤ 100) :
    0 ≤ coverage_score baseline rewritten ∧ coverage_score baseline rewritten ≤ 1 := by
  unfold coverage_score
  by_cases hB : baseline = []
  · simp [hB]
  · rw [if_neg hB]
    have hpos : (0 : ℚ) < ((max 5 (min baseline.length 100) : ℕ) : ℚ) := by
      have h5 : (0 : ℕ) < max 5 (min baseline.length 100) := by omega
      exact_mod_cast h5
    constructor
    · positivity
    · rw [div_le_one hpos]
      have hc : (baseline.countP fun x => !x.isEmpty && occursIn x rewritten) ≤
          baseline.length := List.countP_le_length _
      have hle : (baseline.countP fun x => !x.isEmpty && occursIn x rewritten) ≤
          max 5 (min baseline.length 100) := by omega
      exact_mod_cast hle

/-- Witness for the amended C3, at the baseline `["ab"]` and candidate
`"xaby"`. -/
theorem coverage_score_bounded_witness :
    (["ab".toList] : List (List Char)).length ≤ 100 ∧
    (0 ≤ coverage_score ["ab".toList] "xaby".toList ∧
      coverage_score ["ab".toList] "xaby".toList ≤ 1) :=
  ⟨by decide, coverage_score_bounded ["ab".toList] "xaby".toList (by decide)⟩

/-- Claim C4, counterexample: on the baseline `[""]` the code and the spec's
formula part ways: the empty string occurs as a literal substring of every
candidate (Python's `"" in t` is `True`), but the code's truthiness guard
`if x` skips it, so `coverage_score` returns 0 where the claimed formula
gives `1/5`. -/
theorem C4_counterexample :
    coverage_score [[]] [] = 0 ∧ coverage_score_spec [[]] [] = 1/5 ∧
    coverage_score [[]] [] ≠ coverage_score_spec [[]] [] := by
  have hne : ¬([[]] : List (List Char)) = [] := by simp
  have h1 : (([[]] : List (List Char)).countP fun x => !x.isEmpty && occursIn x []) = 0 := by
    decide
  have h2 : (([[]] : List (List Char)).countP fun x => occursIn x []) = 1 := by decide
  have hden : max 5 (min ([[]] : List (List Char)).length 100) = 5 := by decide
  have e1 : coverage_score [[]] [] = 0 := by
    rw [coverage_score, if_neg hne, h1]
    norm_num
  have e2 : coverage_score_spec [[]] [] = 1/5 := by
    rw [coverage_score_spec, if_neg hne, h2, hden]
    norm_num
  refine ⟨e1, e2, ?_⟩
  rw [e1, e2]
  norm_num

/-- Claim C4 as amended: `coverage_score` is 1.0 on an empty baseline for
every candidate; on a non-empty baseline it equals the count of *non-empty*
baseline items occurring as literal substrings of the candidate divided by
`max(5, min(len(baseline), 100))`; on baselines all of whose items are
non-empty (as `extract_key_facts` always produces) this agrees with the
spec's unguarded count. -/
theorem coverage_score_formula (baseline : List (List Char)) (rewritten : List Char) :
    (baseline = [] → coverage_score baseline rewritten = 1) ∧
    (baseline ≠ [] → coverage_score baseline rewritten =
      ((baseline.countP fun x => !x.isEmpty && occursIn x rewritten : ℕ) : ℚ) /
        ((max 5 (min baseline.length 100) : ℕ) : ℚ)) ∧
    ((∀ x ∈ baseline, x ≠ []) →
      coverage_score baseline rewritten = coverage_score_spec baseline rewritten) := by
  refine ⟨fun hB => by simp [coverage_score, hB], fun hB => by rw [coverage_score, if_neg hB],
    fun hx => ?_⟩
  unfold coverage_score coverage_score_spec
  have hcongr : (baseline.countP fun x => !x.isEmpty && occursIn x rewritten) =
      (baseline.countP fun x => occursIn x rewritten) := by
    induction baseline with
    | nil => rfl
    | cons a l ih =>
      have ha : ¬a.isEmpty := by
        simp [List.isEmpty_iff]
        exact hx a (List.mem_cons_self a l)
      rw [List.countP_cons, List.countP_cons,
        ih (fun x hxl => hx x (List.mem_cons_of_mem a hxl))]
      simp [ha]
  rw [hcongr]

/-- Witness for the amended C4, at the baseline `["ab"]` and candidate
`"xaby"`. -/
theorem coverage_score_formula_witness :
    ((["ab".toList] : List (List Char)) = [] → coverage_score ["ab".toList] "xaby".toList = 1) ∧
    ((["ab".toList] : List (List Char)) ≠ [] → coverage_score ["ab".toList] "xaby".toList =
      (((["ab".toList] : List (List Char)).countP
          fun x => !x.isEmpty && occursIn x "xaby".toList : ℕ) : ℚ) /
        ((max 5 (min (["ab".toList] : List (List Char)).length 100) : ℕ) : ℚ)) ∧
    ((∀ x ∈ (["ab".toList] : List (List Char)), x ≠ []) →
      coverage_score ["ab".toList] "xaby".toList =
        coverage_score_spec ["ab".toList] "xaby".toList) :=
  coverage_score_formula ["ab".toList] "xaby".toList

/-- Claim C6 (confirmed): `is_pass` at the default thresholds is the
conjunction of the five checks `url_keep ≥ 4/5`, `num_keep ≥ 7/10`,
`date_keep ≥ 7/10`, `ent_keep ≥ 3/5`, `length_ratio ≥ 3/5`; in particular a
score vector with `length_ratio = 3/10` fails whatever the other four
scores are. -/
theorem C6_is_pass_iff :
    (∀ s : Scores, is_pass_default s = true ↔
      (4/5 ≤ s.url_keep ∧ 7/10 ≤ s.num_keep ∧ 7/10 ≤ s.date_keep ∧
        3/5 ≤ s.ent_keep ∧ 3/5 ≤ s.length_ratio)) ∧
    (∀ s : Scores, s.length_ratio = 3/10 → is_pass_default s = false) := by
  constructor
  · intro s
    simp [is_pass_default, is_pass, Bool.and_eq_true, decide_eq_true_eq, and_assoc]
  · intro s h
    unfold is_pass_default is_pass
    rw [h, decide_eq_false (by norm_num : ¬((3 : ℚ)/5 ≤ 3/10))]
    simp

/-- Witness for C6: the score vector `(1, 1, 1, 1, 3/10)` — all four
category scores maximal — still fails. -/
theorem C6_witness : is_pass_default ⟨1, 1, 1, 1, 3/10⟩ = false :=
  C6_is_pass_iff.2 ⟨1, 1, 1, 1, 3/10⟩ rfl

/-- Claim C7 (confirmed): the weak-category list interpolated into the
feedback text contains exactly the categories other than `length_ratio`
scoring below 0.8, and the feedback block is the fixed template around the
`", "`-join of that list; in the scenario `num_keep = 1/2` with the other
three categories at least 0.8, the list is exactly `["num_keep"]`. -/
theorem C7_feedback_weak_categories :
    (∀ (s : Scores) (name : String), name ∈ weakCategories s ↔
      ((name = "url_keep" ∧ s.url_keep < 4/5) ∨ (name = "num_keep" ∧ s.num_keep < 4/5) ∨
        (name = "date_keep" ∧ s.date_keep < 4/5) ∨ (name = "ent_keep" ∧ s.ent_keep < 4/5))) ∧
    (∀ s : Scores, composeFeedback s =
      feedbackHead ++ String.intercalate ", " (weakCategories s) ++ feedbackMid ++
        toString (Int.toNat (100 * max (3/5 : ℚ) s.length_ratio).floor) ++ feedbackTail) ∧
    (∀ s : Scores, s.num_keep = 1/2 → 4/5 ≤ s.url_keep → 4/5 ≤ s.date_keep →
      4/5 ≤ s.ent_keep → weakCategories s = ["num_keep"]) := by
  refine ⟨?_, fun s => rfl, ?_⟩
  · intro s name
    unfold weakCategories
    simp only [← not_le]
    split_ifs <;> simp_all
  · intro s hn hu hd he
    have hnum : s.num_keep < 4/5 := by rw [hn]; norm_num
    simp [weakCategories, hnum, not_lt.mpr hu, not_lt.mpr hd, not_lt.mpr he]

/-- Witness for C7: the score vector `(1, 1/2, 1, 1, 1)` yields the weak
list `["num_keep"]`. -/
theorem C7_witness : weakCategories ⟨1, 1/2, 1, 1, 1⟩ = ["num_keep"] :=
  C7_feedback_weak_categories.2.2 ⟨1, 1/2, 1, 1, 1⟩ rfl (by norm_num) (by norm_num) (by norm_num)

/-- Claim C9 (confirmed): every string in each of the four sequences of
`extract_key_facts T` occurs as a literal contiguous substring of `T`. -/
theorem C9_extraction_substring (T x : List Char)
    (h : x ∈ (extract_key_facts T).urls ∨ x ∈ (extract_key_facts T).numbers ∨
      x ∈ (extract_key_facts T).dates ∨ x ∈ (extract_key_facts T).entities) :
    x <:+: T :=
  (extract_key_facts_sound T x h).2

/-- Witness for C9: the URL extracted from `"a https://b c"` is one of its
substrings. -/
theorem C9_witness :
    ("https://b".toList ∈ (extract_key_facts "a https://b c".toList).urls ∨
      "https://b".toList ∈ (extract_key_facts "a https://b c".toList).numbers ∨
      "https://b".toList ∈ (extract_key_facts "a https://b c".toList).dates ∨
      "https://b".toList ∈ (extract_key_facts "a https://b c".toList).entities) ∧
    "https://b".toList <:+: "a https://b c".toList :=
  ⟨Or.inl (by decide),
    C9_extraction_substring "a https://b c".toList "https://b".toList (Or.inl (by decide))⟩

/-- Claim C1, counterexample: in a session whose rewrite responses all carry
no text (so every candidate is the empty string and fails the length
check), `safe_rewrite` with `max_retries = 2` runs the local baseline fact
extraction on the original six times — once per scoring pass — not once. -/
theorem C1_counterexample :
    countEv Event.factExtraction
      (safe_rewrite (fun _ => none) "k".toList "12345".toList "s".toList none 2 1).2 = 6 ∧
    (6 : ℕ) ≠ 1 := by
  refine ⟨?_, by omega⟩
  have h := attemptLoop_fail "12345".toList (fun _ => none) 2 1 ([], ⟨0, 0, 0, 0, 0⟩)
    (fun i _ => validate_empty_fail "12345".toList)
  show countEv Event.factExtraction (Event.extractMustKeep ::
    (attemptLoop "12345".toList (fun _ => none) (2 + 1) 1 ([], ⟨0, 0, 0, 0, 0⟩)).2) = 6
  rw [countEv, if_neg (by simp)]
  have h3 := h.2.2
  omega

/-- Claim C1 as amended: per session the must-keep extraction request to the
generation service is made exactly once, but the local Baseline Fact Set
extraction (`extract_key_facts` on the original, inside `validate_rewrite`)
runs once per scoring pass — as many times as there are generation calls,
at least once — rather than once per session; being deterministic, every
pass recomputes the identical baseline. -/
theorem C1_extraction_per_scoring_pass (gen : Nat → Option (List Char))
    (keyword original ai_suggestions : List Char) (style_guidelines : Option (List Char))
    (max_retries : Nat) (sleep_sec : ℚ) :
    countEv Event.extractMustKeep
      (safe_rewrite gen keyword original ai_suggestions style_guidelines
        max_retries sleep_sec).2 = 1 ∧
    countEv Event.factExtraction
      (safe_rewrite gen keyword original ai_suggestions style_guidelines
        max_retries sleep_sec).2 =
      countEv Event.generate
        (safe_rewrite gen keyword original ai_suggestions style_guidelines
          max_retries sleep_sec).2 ∧
    1 ≤ countEv Event.generate
      (safe_rewrite gen keyword original ai_suggestions style_guidelines
        max_retries sleep_sec).2 := by
  have h := attemptLoop_counts original gen (max_retries + 1) 1 ([], ⟨0, 0, 0, 0, 0⟩)
  show countEv _ (Event.extractMustKeep :: _) = 1 ∧
    countEv _ (Event.extractMustKeep :: _) = countEv _ (Event.extractMustKeep :: _) ∧
    1 ≤ countEv _ (Event.extractMustKeep :: _)
  rw [countEv, countEv, countEv, if_pos rfl, if_neg (by simp), if_neg (by simp)]
  have h4 := h.2.2.2 (by omega)
  refine ⟨by omega, by omega, by omega⟩

/-- Claim C5 (confirmed): every session makes exactly one must-keep
fact-extraction call and between 1 and `2(max_retries+1)` rewrite-generation
calls; with `max_retries = 2` and a generation service whose candidates all
fail scoring, exactly 6 rewrite-generation calls and one extraction call are
made (and `safe_rewrite` still returns — it is a total function). -/
theorem C5_call_counts :
    (∀ (gen : Nat → Option (List Char)) (k o a : List Char) (st : Option (List Char))
      (mr : Nat) (sl : ℚ),
      countEv Event.extractMustKeep (safe_rewrite gen k o a st mr sl).2 = 1 ∧
      1 ≤ countEv Event.generate (safe_rewrite gen k o a st mr sl).2 ∧
      countEv Event.generate (safe_rewrite gen k o a st mr sl).2 ≤ 2 * (mr + 1)) ∧
    (∀ (gen : Nat → Option (List Char)) (k o a : List Char) (st : Option (List Char)) (sl : ℚ),
      (∀ i, 1 ≤ i → is_pass_default (validate_rewrite o ((gen i).getD [])) = false) →
      countEv Event.generate (safe_rewrite gen k o a st 2 sl).2 = 6 ∧
      countEv Event.extractMustKeep (safe_rewrite gen k o a st 2 sl).2 = 1) := by
  constructor
  · intro gen k o a st mr sl
    have h := attemptLoop_counts o gen (mr + 1) 1 ([], ⟨0, 0, 0, 0, 0⟩)
    show countEv _ (Event.extractMustKeep :: _) = 1 ∧
      1 ≤ countEv _ (Event.extractMustKeep :: _) ∧
      countEv _ (Event.extractMustKeep :: _) ≤ 2 * (mr + 1)
    rw [countEv, countEv, if_pos rfl, if_neg (by simp)]
    have h4 := h.2.2.2 (by omega)
    refine ⟨by omega, by omega, by omega⟩
  · intro gen k o a st sl h
    have hl := attemptLoop_fail o gen 2 1 ([], ⟨0, 0, 0, 0, 0⟩) (fun i hi => h i hi)
    show countEv _ (Event.extractMustKeep :: _) = 6 ∧
      countEv _ (Event.extractMustKeep :: _) = 1
    rw [countEv, countEv, if_pos rfl, if_neg (by simp)]
    have h2 := hl.2.1
    have h3 := (attemptLoop_counts o gen (2 + 1) 1 ([], ⟨0, 0, 0, 0, 0⟩)).2.1
    refine ⟨by omega, by omega⟩

/-- Witness for C5: the all-failing session with absent response texts. -/
theorem C5_witness :
    countEv Event.generate
      (safe_rewrite (fun _ => none) "k".toList "abc".toList "s".toList none 2 1).2 = 6 ∧
    countEv Event.extractMustKeep
      (safe_rewrite (fun _ => none) "k".toList "abc".toList "s".toList none 2 1).2 = 1 :=
  C5_call_counts.2 (fun _ => none) "k".toList "abc".toList "s".toList none 1
    (fun i _ => validate_empty_fail "abc".toList)

/-- Claim C8 (confirmed): when every candidate fails the thresholds,
`safe_rewrite` still returns the triple of the last candidate (the one of
generation call `2(max_retries+1)`), that candidate's freshly computed
score vector, and the must-keep structure from call 0; low coverage only
shows in the returned scores, never as an error (the model is a total
function). -/
theorem C8_exhaustion_returns_last (gen : Nat → Option (List Char))
    (k o a : List Char) (st : Option (List Char)) (mr : Nat) (sl : ℚ)
    (h : ∀ i, 1 ≤ i → is_pass_default (validate_rewrite o ((gen i).getD [])) = false) :
    (safe_rewrite gen k o a st mr sl).1.1 = (gen (2 * (mr + 1))).getD [] ∧
    (safe_rewrite gen k o a st mr sl).1.2.1 =
      validate_rewrite o ((gen (2 * (mr + 1))).getD []) ∧
    (safe_rewrite gen k o a st mr sl).1.2.2 = gen 0 := by
  have hl := attemptLoop_fail o gen mr 1 ([], ⟨0, 0, 0, 0, 0⟩) (fun i hi => h i hi)
  have harith : 1 + 2 * mr + 1 = 2 * (mr + 1) := by omega
  rw [harith] at hl
  have e1 := congrArg Prod.fst hl.1
  have e2 := congrArg Prod.snd hl.1
  exact ⟨e1, e2, rfl⟩

/-- Witness for C8: constant `some ""` responses; the returned text is the
empty last candidate with its scores, and the must-keep field is call 0's
response. -/
theorem C8_witness :
    (safe_rewrite (fun _ => some []) "k".toList "xy".toList "s".toList none 1 1).1.1 = [] ∧
    (safe_rewrite (fun _ => some []) "k".toList "xy".toList "s".toList none 1 1).1.2.1 =
      validate_rewrite "xy".toList [] ∧
    (safe_rewrite (fun _ => some []) "k".toList "xy".toList "s".toList none 1 1).1.2.2 =
      some [] :=
  C8_exhaustion_returns_last (fun _ => some []) "k".toList "xy".toList "s".toList none 1 1
    (fun i _ => validate_empty_fail "xy".toList)

/-- Claim C10 (confirmed): when every rewrite response's text field is
absent or empty, the `or ""` at the use sites makes every candidate the
empty string, which always fails the length check, so the session returns
the empty string (never a null) together with its score vector. -/
theorem C10_empty_response_normalized (gen : Nat → Option (List Char))
    (k o a : List Char) (st : Option (List Char)) (mr : Nat) (sl : ℚ)
    (h : ∀ i, 1 ≤ i → gen i = none ∨ gen i = some []) :
    (safe_rewrite gen k o a st mr sl).1.1 = [] ∧
    (safe_rewrite gen k o a st mr sl).1.2.1 = validate_rewrite o [] := by
  have hcand : ∀ i, 1 ≤ i → (gen i).getD [] = [] := by
    intro i hi
    rcases h i hi with h' | h' <;> simp [h']
  have hfail : ∀ i, 1 ≤ i → is_pass_default (validate_rewrite o ((gen i).getD [])) = false := by
    intro i hi
    rw [hcand i hi]
    exact validate_empty_fail o
  have hl := attemptLoop_fail o gen mr 1 ([], ⟨0, 0, 0, 0, 0⟩) hfail
  have hgetd := hcand (1 + 2 * mr + 1) (by omega)
  have e1 := congrArg Prod.fst hl.1
  have e2 := congrArg Prod.snd hl.1
  rw [hgetd] at e1 e2
  exact ⟨e1, e2⟩

/-- Witness for C10: all responses absent. -/
theorem C10_witness :
    (safe_rewrite (fun _ => none) "k".toList "ab".toList "s".toList none 2 1).1.1 = [] ∧
    (safe_rewrite (fun _ => none) "k".toList "ab".toList "s".toList none 2 1).1.2.1 =
      validate_rewrite "ab".toList [] :=
  C10_empty_response_normalized (fun _ => none) "k".toList "ab".toList "s".toList none 2 1
    (fun i _ => Or.inl rfl)

